import Mathlib

namespace Popcorn

/-- Primitive JavaScript values: `undefined`, booleans, numbers, strings. -/
inductive JsAtom where
  | undef : JsAtom
  | bool : Bool → JsAtom
  | num : Nat → JsAtom
  | str : String → JsAtom
  deriving DecidableEq, Repr

/-- JavaScript runtime values, as far as the booking subsystem stores them:
a primitive, or an array of primitives. Arrays of primitives suffice here —
the only loosely typed field the claims touch is `isPaid`, which the schema
declares with `type: Array` and a scalar default. -/
inductive JsVal where
  | prim : JsAtom → JsVal
  | arr : List JsAtom → JsVal
  deriving DecidableEq, Repr

/-- JavaScript truthiness, as used by the handler's `if (!booking.isPaid)`
test: `undefined`, `false`, `0` and the empty string are falsy; every array,
even the empty one, is truthy. -/
def truthy : JsVal → Bool
  | .prim .undef => false
  | .prim (.bool b) => b
  | .prim (.num n) => !(n == 0)
  | .prim (.str s) => !(s == "")
  | .arr _ => true

/-- The `occupiedSeats` JavaScript object of a Show document: seat label
mapped to the id of the booking/user holding the seat. Keys of a JavaScript
object are unique; the association list is read through `lookupKey` (first
binding wins) and mutated through `eraseKey`. -/
abbrev OccMap := List (String × String)

/-- Property read `obj[key]` on the seat map. -/
def lookupKey : OccMap → String → Option String
  | [], _ => none
  | p :: rest, k => if p.1 = k then some p.2 else lookupKey rest k

/-- The JavaScript `delete obj[key]` operator on the seat map: removes the
binding for `k` (every binding, which on a JavaScript object, whose keys are
unique, is the single one) and is a no-op when the key is absent. -/
def eraseKey : OccMap → String → OccMap
  | [], _ => []
  | p :: rest, k => if p.1 = k then eraseKey rest k else p :: eraseKey rest k

/-- The seat-release loop of the timeout handler
(`src/backend/inngest/index.js` lines 69-71):
`booking.bookedSeats.forEach((seat) => { delete show.occupiedSeats[seat]; })`. -/
def releaseSeats (m : OccMap) (seats : List String) : OccMap :=
  seats.foldl (fun acc s => eraseKey acc s) m

/-- A Movie document, to the extent the claims need it (`_id` and `title`). -/
structure Movie where
  mId : String
  title : String
  deriving DecidableEq, Repr

/-- A Show document: movie reference, start time, price, and the
occupied-seats map. Start times are kept as the ISO-like strings the code
builds (lexicographic comparison of such strings agrees with chronological
order). Mongo's generated `_id` is `sId`. -/
structure Show where
  sId : String
  movie : String
  showDateTime : String
  showPrice : Nat
  occupiedSeats : OccMap
  deriving DecidableEq, Repr

/-- A Booking document per `bookingSchema` (`src/backend/server.js` lines
36-43). The source field `show` is a Lean keyword, so it is called `showRef`
here. `isPaid` is a `JsVal` because the schema declares it with
`type: Array` (not `Boolean`), and `createdAt` is optional because the
schema's `{ timestamp: true }` option (a misspelling of `timestamps`) never
adds timestamps, leaving the field absent. -/
structure Booking where
  bId : String
  user : String
  showRef : String
  amount : Nat
  bookedSeats : List String
  isPaid : JsVal
  createdAt : Option Nat
  deriving DecidableEq, Repr

/-- The persistent state: the Show, Booking and Movie collections. -/
structure DB where
  shows : List Show
  bookings : List Booking
  movies : List Movie
  deriving DecidableEq, Repr

/-- `Booking.findById`. -/
def DB.findBooking (db : DB) (i : String) : Option Booking :=
  db.bookings.find? (fun b => b.bId = i)

/-- `Show.findById`. -/
def DB.findShow (db : DB) (i : String) : Option Show :=
  db.shows.find? (fun s => s.sId = i)

/-- `Movie.findById`. -/
def DB.findMovie (db : DB) (i : String) : Option Movie :=
  db.movies.find? (fun m => m.mId = i)

/-- `show.save()`: writes the document back over every stored show carrying
the same `_id` (there is exactly one in a well-formed store). -/
def DB.saveShow (db : DB) (s : Show) : DB :=
  { db with shows := db.shows.map (fun x => if x.sId = s.sId then s else x) }

/-- `Booking.findByIdAndDelete`. -/
def DB.deleteBooking (db : DB) (i : String) : DB :=
  { db with bookings := db.bookings.filter (fun b => !(b.bId = i)) }

/-- Outcome of one run of the deferred step: the resulting store and whether
the step terminated by throwing (an uncaught JavaScript `TypeError`). -/
structure StepResult where
  db : DB
  errored : Bool
  deriving DecidableEq, Repr

/-- The `check-payment-status` step of `releaseSeatsAndDeleteBooking`
(`src/backend/inngest/index.js` lines 62-76), run after the ten-minute
sleep. `Booking.findById` may return `null`; the code then dereferences
`booking.isPaid` unguarded, which throws before any write (the `errored`
branch). When the booking exists and `!booking.isPaid` holds, the show is
loaded (a `null` show likewise throws at `show.occupiedSeats` /
`show.markModified` before any write), each booked seat is deleted from
`occupiedSeats`, the show is saved, and only then is the booking deleted. -/
def expireIfUnpaid (db : DB) (bookingId : String) : StepResult :=
  match db.findBooking bookingId with
  | none => ⟨db, true⟩
  | some booking =>
    if !(truthy booking.isPaid) then
      match db.findShow booking.showRef with
      | none => ⟨db, true⟩
      | some sh =>
        let released : Show :=
          { sh with occupiedSeats := releaseSeats sh.occupiedSeats booking.bookedSeats }
        let afterSave := db.saveShow released
        let afterDelete := afterSave.deleteBooking booking.bId
        ⟨afterDelete, false⟩
    else ⟨db, false⟩

/-- The holder recorded for seat `seat` of show `sid`, `none` when the show
is missing or the seat is free. -/
def seatHolder (db : DB) (sid : String) (seat : String) : Option String :=
  match db.findShow sid with
  | none => none
  | some sh => lookupKey sh.occupiedSeats seat

/-- Mongoose's handling of a non-function `default` on a field declared with
`type: Array`: the document-creation default is `[].concat(default)`, which
leaves an array unchanged and wraps a scalar into a one-element array. -/
def mongooseArrayDefault (d : JsVal) : JsVal :=
  match d with
  | .arr xs => .arr xs
  | .prim p => .arr [p]

/-- The initial `isPaid` value a freshly persisted Booking carries under
`bookingSchema`'s line `isPaid: {type: Array, default: false}`
(`src/backend/server.js` line 41): the array-typed field wraps the scalar
default `false` into the array `[false]`. -/
def bookingIsPaidInitial : JsVal :=
  mongooseArrayDefault (.prim (.bool false))

/-- Whether `bookingSchema` enables mongoose timestamps. The schema passes
the option `{ timestamp: true }` (`src/backend/server.js` line 43), but the
mongoose option is spelled `timestamps`; the unknown option is ignored, so
no `createdAt`/`updatedAt` fields are ever added to Booking documents. -/
def bookingTimestampsEnabled : Bool := false

/-- The `createdAt` value stored on a freshly persisted Booking: absent,
because `bookingSchema` never enables timestamps (see
`bookingTimestampsEnabled`). -/
def bookingCreatedAtInitial (now : Nat) : Option Nat :=
  if bookingTimestampsEnabled then some now else none

/-- A Booking document as `Booking.create` persists it at time `now` when the
caller supplies user, show, amount and seats and leaves `isPaid` and
`createdAt` to the schema. -/
def freshBooking (i user showRef : String) (amount : Nat)
    (seats : List String) (now : Nat) : Booking :=
  ⟨i, user, showRef, amount, seats, bookingIsPaidInitial, bookingCreatedAtInitial now⟩

/-- Mongo's descending comparison for the sort key `createdAt`: a present
value is ordered by its numeric value, and a missing value sorts below every
present one. `keyGtDesc a b` says `a` must come strictly before `b` in
descending order. -/
def keyGtDesc : Option Nat → Option Nat → Bool
  | some x, some y => decide (y < x)
  | some _, none => true
  | none, _ => false

/-- Insert `x` behind every already-placed element it does not strictly
precede, so that ties (in particular documents that all lack the sort key)
keep their original, natural order. -/
def insertDesc (k : α → Option Nat) : List α → α → List α
  | [], x => [x]
  | y :: ys, x => if keyGtDesc (k x) (k y) then x :: y :: ys else y :: insertDesc k ys x

/-- Stable descending sort by an optional numeric key, modelling Mongo's
`.sort({field: -1})`: documents missing the field compare equal (below all
present values) and stay in natural order. -/
def sortDesc (k : α → Option Nat) (l : List α) : List α :=
  l.foldl (insertDesc k) []

/-- `populate({path: "show", populate: {path: "movie"}})` on one booking:
the booking together with its resolved show document and that show's
resolved movie document (either may be `none` for a dangling reference). -/
def populateBooking (db : DB) (b : Booking) : Booking × Option Show × Option Movie :=
  match db.findShow b.showRef with
  | none => (b, none, none)
  | some sh => (b, some sh, db.findMovie sh.movie)

/-- `getUserBookings` (`src/backend/controllers/userController.js` lines
7-22): `Booking.find({user})`, populated with show and movie, sorted by
`.sort({createdAt: -1})`. -/
def getUserBookings (db : DB) (userId : String) : List (Booking × Option Show × Option Movie) :=
  (sortDesc (fun b => b.createdAt) (db.bookings.filter (fun b => b.user = userId))).map
    (populateBooking db)

/-- The `time` field of one element of `addShow`'s `showsInput`: the code
accepts either an array of time strings or a single time string. -/
inductive TimeField where
  | one : String → TimeField
  | many : List String → TimeField
  deriving DecidableEq, Repr

/-- One element of `addShow`'s `showsInput` request field. -/
structure ShowInput where
  date : String
  time : TimeField
  deriving DecidableEq, Repr

/-- The body of a `POST /api/show/add` request; each field may be absent. -/
structure AddReq where
  movieId : Option String
  showsInput : Option (List ShowInput)
  showPrice : Option Nat
  deriving DecidableEq, Repr

/-- HTTP outcome of `addShow`: the 400 validation rejection, success, or the
500 path taken when the movie lookup against the external metadata service
fails. -/
inductive AddStatus where
  | badRequest : AddStatus
  | ok : AddStatus
  | serverError : AddStatus
  deriving DecidableEq, Repr

/-- Result of `addShow`: the resulting store, the HTTP outcome, and the
titles carried by the emitted `app/show.added` events. -/
structure AddResult where
  db : DB
  status : AddStatus
  events : List String
  deriving DecidableEq, Repr

/-- `Movie.create` / `Show.insertMany`. -/
def DB.insertMovie (db : DB) (m : Movie) : DB :=
  { db with movies := db.movies ++ [m] }

/-- Appends the created show documents to the store (`Show.insertMany`);
Mongo assigns fresh object ids, which no claim depends on, so the documents
keep the empty `sId` they are built with. -/
def DB.insertShows (db : DB) (docs : List Show) : DB :=
  { db with shows := db.shows ++ docs }

/-- One element pushed onto `showsToCreate` (`src/unnamed/part_001` lines
155-170): movie reference, combined date-time string, price, and an empty
occupied-seats object. -/
def mkShowDoc (movieId dateTime : String) (price : Nat) : Show :=
  ⟨"", movieId, dateTime, price, []⟩

/-- The documents pushed for one `showsInput` element: one per time of the
`time` array (or the single time), each with `showDate + "T" + time`. -/
def showDocsOf (movieId : String) (price : Nat) (si : ShowInput) : List Show :=
  match si.time with
  | .many ts => ts.map (fun t => mkShowDoc movieId (si.date ++ "T" ++ t) price)
  | .one t => [mkShowDoc movieId (si.date ++ "T" ++ t) price]

/-- The common tail of `addShow` once the movie document `movie` is at hand:
builds `showsToCreate` by pushing the documents of each input element,
`insertMany`s them when there are any, and emits the `app/show.added` event
carrying `movie.title`. -/
def addShowTail (db : DB) (movie : Movie) (movieId : String)
    (showsInput : List ShowInput) (price : Nat) : AddResult :=
  let showsToCreate := showsInput.foldl (fun acc si => acc ++ showDocsOf movieId price si) []
  let db2 := if showsToCreate.isEmpty then db else db.insertShows showsToCreate
  ⟨db2, .ok, [movie.title]⟩

/-- `addShow` (`src/unnamed/part_001` lines 96-189). The guard mirrors
`if (!movieId || !showsInput || showsInput.length === 0 || !showPrice)`
under JavaScript falsiness: an absent field, an empty `movieId` string, an
empty `showsInput` array or a zero `showPrice` all trigger the 400 rejection
before anything is persisted. Otherwise the movie is looked up; when absent
it is fetched from the metadata service (`fetchMovie` returns the fetched
title, `none` modelling the network failure that the `catch` turns into a
500 with nothing persisted) and created with `_id = movieId`. -/
def addShow (db : DB) (fetchMovie : String → Option String) (req : AddReq) : AddResult :=
  match req.movieId, req.showsInput, req.showPrice with
  | some movieId, some showsInput, some price =>
    if movieId = "" || showsInput.isEmpty || price = 0 then ⟨db, .badRequest, []⟩
    else
      match db.findMovie movieId with
      | some movie => addShowTail db movie movieId showsInput price
      | none =>
        match fetchMovie movieId with
        | none => ⟨db, .serverError, []⟩
        | some title =>
          let movie : Movie := ⟨movieId, title⟩
          addShowTail (db.insertMovie movie) movie movieId showsInput price
  | _, _, _ => ⟨db, .badRequest, []⟩

/-- Lexicographic comparison of character lists by code point. -/
def strLtCore : List Char → List Char → Bool
  | [], [] => false
  | [], _ :: _ => true
  | _ :: _, [] => false
  | a :: as, b :: bs =>
    if a.toNat < b.toNat then true
    else if b.toNat < a.toNat then false
    else strLtCore as bs

/-- Lexicographic string comparison `a < b` by code point, as JavaScript
compares strings; on the ISO-like date-time strings the code builds, this
agrees with chronological order. -/
def strLt (a b : String) : Bool := strLtCore a.data b.data

/-- Mongo's `$gte` filter on the stored start times: `a ≥ b`. -/
def strGe (a b : String) : Bool := !(strLt a b)

/-- Insert `x` behind every already-placed show whose start time it does not
strictly precede, so that ties keep their original order. -/
def insertAsc (k : α → String) : List α → α → List α
  | [], x => [x]
  | y :: ys, x => if strLt (k x) (k y) then x :: y :: ys else y :: insertAsc k ys x

/-- Stable ascending sort by a string key, modelling Mongo's
`.sort({showDateTime: 1})`. -/
def sortAsc (k : α → String) (l : List α) : List α :=
  l.foldl (insertAsc k) []

/-- The `uniqueMovies` loop of `getShows` (`src/unnamed/part_001` lines
201-206): walk the sorted shows, resolve `show.movie` (populate; a dangling
reference yields `null` and the show is skipped), and append the movie
document to the accumulator unless one with the same `_id` is already there
(`Map.set` keyed by `show.movie._id`, insertion order preserved). -/
def buildUnique (db : DB) : List Show → List Movie → List Movie
  | [], acc => acc
  | s :: rest, acc =>
    match db.findMovie s.movie with
    | none => buildUnique db rest acc
    | some m =>
      if acc.any (fun x => x.mId = m.mId) then buildUnique db rest acc
      else buildUnique db rest (acc ++ [m])

/-- `getShows` (`src/unnamed/part_001` lines 193-213): filter to shows with
`showDateTime >= now`, sort ascending by start time, then return
`Array.from(uniqueMovies.values())` — the movie documents, one per distinct
movie, keyed by first occurrence. -/
def getShows (db : DB) (now : String) : List Movie :=
  let upcoming := db.shows.filter (fun s => strGe s.showDateTime now)
  buildUnique db (sortAsc (fun s => s.showDateTime) upcoming) []

/-- The first upcoming show per distinct movie reference, in ascending
start-time order: the shows the claim about `getShows` says are returned.
`seen` carries the movie references already encountered. -/
def dedupByRef : List Show → List String → List Show
  | [], _ => []
  | s :: rest, seen =>
    if s.movie ∈ seen then dedupByRef rest seen
    else s :: dedupByRef rest (s.movie :: seen)

/-- The upcoming shows (start time at least `now`) sorted by ascending start
time and deduplicated to the first occurrence per distinct movie reference. -/
def upcomingFirstShows (db : DB) (now : String) : List Show :=
  dedupByRef (sortAsc (fun s => s.showDateTime)
    (db.shows.filter (fun s => strGe s.showDateTime now))) []

/-- The guard of `addShow` as a predicate on the request: true exactly when
`!movieId || !showsInput || showsInput.length === 0 || !showPrice` holds,
that is, when a field is absent, `movieId` is the empty string, the slot
list is empty, or the price is zero. -/
def invalidAddReq (req : AddReq) : Bool :=
  match req.movieId, req.showsInput, req.showPrice with
  | some movieId, some showsInput, some price =>
    movieId = "" || showsInput.isEmpty || price = 0
  | _, _, _ => true

/-- The (date, time) pairs supplied by a request body, one per time of each
element's `time` array (or its single time): the unit of "one Show per
(date, time) pair" in the claim about `addShow`. -/
def suppliedPairs (l : List ShowInput) : List (String × String) :=
  l.flatMap (fun si =>
    match si.time with
    | .many ts => ts.map (fun t => (si.date, t))
    | .one t => [(si.date, t)])

/-- Concrete movie fixture. -/
def movieDune : Movie := ⟨"m1", "Dune"⟩

/-- Concrete show fixture: seats A1, A2 held by booking `b1`, seat B1 held
by another user. -/
def shX : Show := ⟨"s1", "m1", "2030-01-01T18:00", 200, [("A1", "b1"), ("A2", "b1"), ("B1", "u9")]⟩

/-- A booking whose `isPaid` is the boolean `false`. -/
def bkUnpaid : Booking := ⟨"b1", "u1", "s1", 400, ["A1", "A2"], .prim (.bool false), none⟩

/-- A booking whose `isPaid` is the boolean `true`. -/
def bkPaid : Booking := ⟨"b1", "u1", "s1", 400, ["A1", "A2"], .prim (.bool true), none⟩

/-- A booking exactly as the schema persists a fresh one. -/
def bkFresh : Booking := freshBooking "b1" "u1" "s1" 400 ["A1", "A2"] 0

/-- Empty store. -/
def dbEmpty : DB := ⟨[], [], []⟩

/-- Store holding `shX` and the unpaid booking `bkUnpaid`. -/
def dbUnpaid : DB := ⟨[shX], [bkUnpaid], [movieDune]⟩

/-- Store holding `shX` and the paid booking `bkPaid`. -/
def dbPaid : DB := ⟨[shX], [bkPaid], [movieDune]⟩

/-- Store holding `shX` and the schema-fresh booking `bkFresh`. -/
def dbFresh : DB := ⟨[shX], [bkFresh], [movieDune]⟩

/-- First booking of user u1, persisted first (hence older). -/
def bkSix1 : Booking := ⟨"b1", "u1", "s1", 200, ["A1"], bookingIsPaidInitial, bookingCreatedAtInitial 0⟩

/-- Second booking of user u1, persisted after `bkSix1` (hence newer). -/
def bkSix2 : Booking := ⟨"b2", "u1", "s1", 200, ["A2"], bookingIsPaidInitial, bookingCreatedAtInitial 1⟩

/-- A booking of a different user. -/
def bkOther : Booking := ⟨"b3", "u2", "s1", 200, ["B1"], bookingIsPaidInitial, bookingCreatedAtInitial 2⟩

/-- Store for the `getUserBookings` claim: u1's two bookings in insertion
order plus another user's booking. -/
def dbSix : DB := ⟨[shX], [bkSix1, bkSix2, bkOther], [movieDune]⟩

/-- Store holding only the movie `movieDune`. -/
def dbMovie : DB := ⟨[], [], [movieDune]⟩

/-- Store for the `getShows` claim: one upcoming show of `movieDune`. -/
def dbNine : DB := ⟨[shX], [], [movieDune]⟩

/-- A metadata-service oracle that never answers. -/
def fetchNone : String → Option String := fun _ => none

/-- A well-formed add-show request carrying a present, nonzero price and
three (date, time) pairs. -/
def reqEight : AddReq :=
  ⟨some "m1", some [⟨"2030-01-02", .many ["18:00", "21:00"]⟩, ⟨"2030-01-03", .one "12:00"⟩], some 250⟩

/-- An add-show request whose fields are all present and whose slot list is
nonempty, but whose price is the number `0`. -/
def reqZero : AddReq := ⟨some "m1", some [⟨"2030-01-02", .many ["18:00"]⟩], some 0⟩

theorem releaseSeats_nil (m : OccMap) : releaseSeats m [] = m := rfl

theorem releaseSeats_cons (m : OccMap) (k : String) (L : List String) :
    releaseSeats m (k :: L) = releaseSeats (eraseKey m k) L := rfl

theorem eraseKey_eraseKey_same (m : OccMap) (k : String) :
    eraseKey (eraseKey m k) k = eraseKey m k := by
  induction m with
  | nil => rfl
  | cons p rest ih =>
    by_cases h : p.1 = k
    · simp [eraseKey, h, ih]
    · simp [eraseKey, h, ih]

theorem eraseKey_cons (p : String × String) (rest : OccMap) (k : String) :
    eraseKey (p :: rest) k = if p.1 = k then eraseKey rest k else p :: eraseKey rest k := rfl

theorem lookupKey_cons (p : String × String) (rest : OccMap) (k : String) :
    lookupKey (p :: rest) k = if p.1 = k then some p.2 else lookupKey rest k := rfl

theorem eraseKey_comm (m : OccMap) (a b : String) :
    eraseKey (eraseKey m a) b = eraseKey (eraseKey m b) a := by
  induction m with
  | nil => rfl
  | cons p rest ih =>
    by_cases ha : p.1 = a
    · by_cases hb : p.1 = b
      · rw [eraseKey_cons, if_pos ha, eraseKey_cons, if_pos hb, ih]
      · rw [eraseKey_cons, if_pos ha, eraseKey_cons, if_neg hb,
          eraseKey_cons, if_pos ha, ih]
    · by_cases hb : p.1 = b
      · rw [eraseKey_cons, if_neg ha, eraseKey_cons, if_pos hb,
          eraseKey_cons, if_pos hb, ih]
      · rw [eraseKey_cons, if_neg ha, eraseKey_cons, if_neg hb,
          eraseKey_cons, if_neg hb, eraseKey_cons, if_neg ha, ih]

theorem releaseSeats_eraseKey_comm (m : OccMap) (k : String) (L : List String) :
    releaseSeats (eraseKey m k) L = eraseKey (releaseSeats m L) k := by
  induction L generalizing m with
  | nil => rfl
  | cons a L ih =>
    rw [releaseSeats_cons, releaseSeats_cons, eraseKey_comm m k a, ih]

theorem lookupKey_eraseKey_self (m : OccMap) (k : String) :
    lookupKey (eraseKey m k) k = none := by
  induction m with
  | nil => rfl
  | cons p rest ih =>
    by_cases h : p.1 = k
    · simp [eraseKey, h, ih]
    · simp [eraseKey, lookupKey, h, ih]

theorem lookupKey_eraseKey_ne (m : OccMap) {s k : String} (h : s ≠ k) :
    lookupKey (eraseKey m k) s = lookupKey m s := by
  induction m with
  | nil => rfl
  | cons p rest ih =>
    by_cases hk : p.1 = k
    · have hs : ¬ p.1 = s := by rw [hk]; exact fun hc => h hc.symm
      rw [eraseKey_cons, if_pos hk, ih, lookupKey_cons, if_neg hs]
    · by_cases hs : p.1 = s
      · rw [eraseKey_cons, if_neg hk, lookupKey_cons, if_pos hs,
          lookupKey_cons, if_pos hs]
      · rw [eraseKey_cons, if_neg hk, lookupKey_cons, if_neg hs,
          lookupKey_cons, if_neg hs, ih]

theorem lookupKey_releaseSeats_of_not_mem (m : OccMap) {s : String}
    {L : List String} (h : s ∉ L) :
    lookupKey (releaseSeats m L) s = lookupKey m s := by
  induction L generalizing m with
  | nil => rfl
  | cons a L ih =>
    have hs : s ≠ a := fun hc => h (hc ▸ List.mem_cons_self a L)
    have hL : s ∉ L := fun hc => h (List.mem_cons_of_mem a hc)
    rw [releaseSeats_cons, ih _ hL, lookupKey_eraseKey_ne m hs]

theorem lookupKey_releaseSeats_of_mem (m : OccMap) {s : String}
    {L : List String} (h : s ∈ L) :
    lookupKey (releaseSeats m L) s = none := by
  induction L generalizing m with
  | nil => exact absurd h (List.not_mem_nil s)
  | cons a L ih =>
    rw [releaseSeats_cons]
    by_cases hm : s ∈ L
    · exact ih _ hm
    · have hsa : s = a := by
        rcases List.mem_cons.mp h with h1 | h2
        · exact h1
        · exact absurd h2 hm
      rw [lookupKey_releaseSeats_of_not_mem _ hm, hsa, lookupKey_eraseKey_self]

theorem eraseKey_of_lookup_none (m : OccMap) {k : String}
    (h : lookupKey m k = none) : eraseKey m k = m := by
  induction m with
  | nil => rfl
  | cons p rest ih =>
    by_cases hk : p.1 = k
    · simp [lookupKey, hk] at h
    · simp only [lookupKey, hk, if_false] at h
      simp [eraseKey, hk, ih h]

theorem findBooking_saveShow (db : DB) (s : Show) (i : String) :
    (db.saveShow s).findBooking i = db.findBooking i := rfl

theorem findShow_deleteBooking (db : DB) (i j : String) :
    (db.deleteBooking i).findShow j = db.findShow j := rfl

theorem find?_sId_map_replace (l : List Show) (t : Show) {i : String}
    (h : i ≠ t.sId) :
    (l.map (fun x => if x.sId = t.sId then t else x)).find? (fun s => s.sId = i)
      = l.find? (fun s => s.sId = i) := by
  induction l with
  | nil => rfl
  | cons x rest ih =>
    by_cases hx : x.sId = t.sId
    · have h1 : ¬ t.sId = i := fun hc => h hc.symm
      have h2 : ¬ x.sId = i := by rw [hx]; exact h1
      simp [hx, List.find?_cons, h1, h2, ih]
    · simp only [List.map_cons, if_neg hx, List.find?_cons]
      by_cases h2 : x.sId = i
      · simp [h2]
      · simp [h2, ih]

theorem findShow_saveShow_ne (db : DB) (t : Show) {i : String} (h : i ≠ t.sId) :
    (db.saveShow t).findShow i = db.findShow i := by
  unfold DB.saveShow DB.findShow
  exact find?_sId_map_replace db.shows t h

theorem find?_sId_map_replace_self (l : List Show) (t : Show)
    (h : (l.find? (fun s => s.sId = t.sId)).isSome) :
    (l.map (fun x => if x.sId = t.sId then t else x)).find? (fun s => s.sId = t.sId)
      = some t := by
  induction l with
  | nil => simp [List.find?] at h
  | cons x rest ih =>
    rw [List.map_cons]
    by_cases hx : x.sId = t.sId
    · rw [if_pos hx, List.find?_cons_of_pos _ (by simp)]
    · rw [List.find?_cons_of_neg _
        (by simp only [decide_eq_true_eq]; exact hx)] at h
      rw [if_neg hx, List.find?_cons_of_neg _
        (by simp only [decide_eq_true_eq]; exact hx)]
      exact ih h

theorem findShow_saveShow_self (db : DB) (t : Show)
    (h : (db.findShow t.sId).isSome) :
    (db.saveShow t).findShow t.sId = some t := by
  unfold DB.saveShow DB.findShow
  exact find?_sId_map_replace_self db.shows t h

theorem findShow_saveShow_eq_id (db : DB) (t : Show) {i : String}
    (hid : t.sId = i) (h : (db.findShow i).isSome) :
    (db.saveShow t).findShow i = some t := by
  subst hid
  exact findShow_saveShow_self db t h

theorem findBooking_deleteBooking_self (db : DB) (i : String) :
    (db.deleteBooking i).findBooking i = none := by
  unfold DB.deleteBooking DB.findBooking
  rw [List.find?_eq_none]
  intro b hb
  have := (List.mem_filter.mp hb).2
  simpa using this

theorem find?_bId_filter_out (l : List Booking) {i j : String} (h : j ≠ i) :
    (l.filter (fun b => !(b.bId = i))).find? (fun b => b.bId = j)
      = l.find? (fun b => b.bId = j) := by
  induction l with
  | nil => rfl
  | cons b rest ih =>
    by_cases hb : b.bId = i
    · have h2 : ¬ b.bId = j := by rw [hb]; exact fun hc => h hc.symm
      rw [List.filter_cons_of_neg (by simp [hb]), ih,
        List.find?_cons_of_neg _ (by simp only [decide_eq_true_eq]; exact h2)]
    · rw [List.filter_cons_of_pos (by simp [hb])]
      by_cases h2 : b.bId = j
      · rw [List.find?_cons_of_pos _ (by simp [h2]),
          List.find?_cons_of_pos _ (by simp [h2])]
      · rw [List.find?_cons_of_neg _ (by simp only [decide_eq_true_eq]; exact h2),
          List.find?_cons_of_neg _ (by simp only [decide_eq_true_eq]; exact h2), ih]

theorem findBooking_deleteBooking_ne (db : DB) {i j : String} (h : j ≠ i) :
    (db.deleteBooking i).findBooking j = db.findBooking j :=
  find?_bId_filter_out db.bookings h

theorem findShow_sId (db : DB) {i : String} {sh : Show}
    (h : db.findShow i = some sh) : sh.sId = i := by
  have := List.find?_some h
  simpa using this

theorem findBooking_bId (db : DB) {i : String} {b : Booking}
    (h : db.findBooking i = some b) : b.bId = i := by
  have := List.find?_some h
  simpa using this

theorem findMovie_mId (db : DB) {i : String} {m : Movie}
    (h : db.findMovie i = some m) : m.mId = i := by
  have := List.find?_some h
  simpa using this

theorem expireIfUnpaid_missing (db : DB) {bid : String}
    (h : db.findBooking bid = none) : expireIfUnpaid db bid = ⟨db, true⟩ := by
  simp [expireIfUnpaid, h]

theorem expireIfUnpaid_paid (db : DB) {bid : String} {b : Booking}
    (h : db.findBooking bid = some b) (hp : truthy b.isPaid = true) :
    expireIfUnpaid db bid = ⟨db, false⟩ := by
  simp [expireIfUnpaid, h, hp]

theorem expireIfUnpaid_noShow (db : DB) {bid : String} {b : Booking}
    (h : db.findBooking bid = some b) (hp : truthy b.isPaid = false)
    (hs : db.findShow b.showRef = none) :
    expireIfUnpaid db bid = ⟨db, true⟩ := by
  simp [expireIfUnpaid, h, hp, hs]

theorem expireIfUnpaid_release (db : DB) {bid : String} {b : Booking} {sh : Show}
    (h : db.findBooking bid = some b) (hp : truthy b.isPaid = false)
    (hs : db.findShow b.showRef = some sh) :
    expireIfUnpaid db bid =
      ⟨(db.saveShow
          { sh with occupiedSeats := releaseSeats sh.occupiedSeats b.bookedSeats }).deleteBooking
          b.bId,
        false⟩ := by
  simp [expireIfUnpaid, h, hp, hs]

/-- C1 counterexample: the claim says that running the deferred timeout
handler on a booking id whose Booking record no longer exists returns
without error. On the concrete store `dbUnpaid`, which holds no booking with
id `zz`, the run terminates by throwing (the code dereferences
`booking.isPaid` on the `null` result of `Booking.findById`), refuting the
claim as stated. -/
theorem c1_counterexample :
    dbUnpaid.findBooking "zz" = none ∧ (expireIfUnpaid dbUnpaid "zz").errored = true := by
  decide

/-- C1 (amended): for every booking id whose Booking record no longer
exists, the deferred timeout handler leaves every Show occupied-seats map
and every Booking record unchanged, but terminates with an error (a null
dereference of the missing booking) rather than returning without error. -/
theorem c1_amended_missing_booking (db : DB) (bid : String)
    (h : db.findBooking bid = none) :
    expireIfUnpaid db bid = ⟨db, true⟩ := by
  simp [expireIfUnpaid, h]

/-- C1 witness: the amended theorem applied to the empty store. -/
theorem c1_witness : expireIfUnpaid dbEmpty "b1" = ⟨dbEmpty, true⟩ :=
  c1_amended_missing_booking dbEmpty "b1" (by decide)

/-- C2: for every booking whose isPaid flag is the boolean `true` when the
deferred timeout handler runs, the handler is a no-op: the store is
returned unchanged without error, the Booking record still exists with the
same (true) isPaid, and every seat of the booking's booked-seats keeps
exactly the holder it had in the owning Show's occupied-seats map. -/
theorem c2_paid_noop (db : DB) (bid : String) (b : Booking)
    (hb : db.findBooking bid = some b)
    (hp : b.isPaid = .prim (.bool true)) :
    expireIfUnpaid db bid = ⟨db, false⟩
    ∧ (expireIfUnpaid db bid).db.findBooking bid = some b
    ∧ ∀ s ∈ b.bookedSeats,
        seatHolder (expireIfUnpaid db bid).db b.showRef s = seatHolder db b.showRef s := by
  have hpt : truthy b.isPaid = true := by rw [hp]; rfl
  have heq := expireIfUnpaid_paid db hb hpt
  refine ⟨heq, ?_, ?_⟩
  · rw [heq]; exact hb
  · intro s hsm; rw [heq]

/-- C2 witness: the theorem applied to the store `dbPaid` holding the paid
booking `bkPaid` for the show `shX`. -/
theorem c2_witness :
    expireIfUnpaid dbPaid "b1" = ⟨dbPaid, false⟩
    ∧ (expireIfUnpaid dbPaid "b1").db.findBooking "b1" = some bkPaid
    ∧ seatHolder (expireIfUnpaid dbPaid "b1").db "s1" "A1" = seatHolder dbPaid "s1" "A1" := by
  have h := c2_paid_noop dbPaid "b1" bkPaid (by decide) (by decide)
  exact ⟨h.1, h.2.1, h.2.2 "A1" (by decide)⟩

/-- C3: for every existing booking with isPaid the boolean `false` whose
seats are recorded in the owning (existing) Show's occupied-seats map, the
deferred timeout handler removes every booked seat from that map and
deletes the Booking, and arrives there by first saving the released show and
only then deleting the booking: the final store is literally the delete
applied after the save, and at the intermediate state (after the save,
before the delete) the seats are already free while the Booking still
exists. -/
theorem c3_unpaid_release_then_delete (db : DB) (bid : String) (b : Booking) (sh : Show)
    (hb : db.findBooking bid = some b)
    (hp : b.isPaid = .prim (.bool false))
    (hs : db.findShow b.showRef = some sh)
    (hrec : ∀ s ∈ b.bookedSeats, (lookupKey sh.occupiedSeats s).isSome = true) :
    expireIfUnpaid db bid =
      ⟨(db.saveShow
          { sh with occupiedSeats := releaseSeats sh.occupiedSeats b.bookedSeats }).deleteBooking
          b.bId,
        false⟩
    ∧ (db.saveShow
        { sh with occupiedSeats := releaseSeats sh.occupiedSeats b.bookedSeats }).findBooking bid
        = some b
    ∧ (∀ s ∈ b.bookedSeats,
        seatHolder
          (db.saveShow
            { sh with occupiedSeats := releaseSeats sh.occupiedSeats b.bookedSeats })
          b.showRef s = none)
    ∧ (expireIfUnpaid db bid).db.findBooking bid = none
    ∧ (∀ s ∈ b.bookedSeats, seatHolder (expireIfUnpaid db bid).db b.showRef s = none) := by
  have hpf : truthy b.isPaid = false := by rw [hp]; rfl
  have heq := expireIfUnpaid_release db hb hpf hs
  have hshId : sh.sId = b.showRef := findShow_sId db hs
  have hrelId :
      ({ sh with occupiedSeats := releaseSeats sh.occupiedSeats b.bookedSeats } : Show).sId
        = b.showRef := hshId
  have hsome : (db.findShow b.showRef).isSome := by rw [hs]; rfl
  have hfindRel :
      (db.saveShow
          { sh with occupiedSeats := releaseSeats sh.occupiedSeats b.bookedSeats }).findShow
          b.showRef
        = some { sh with occupiedSeats := releaseSeats sh.occupiedSeats b.bookedSeats } :=
    findShow_saveShow_eq_id db _ hrelId hsome
  have hmid : ∀ s ∈ b.bookedSeats,
      seatHolder
        (db.saveShow
          { sh with occupiedSeats := releaseSeats sh.occupiedSeats b.bookedSeats })
        b.showRef s = none := by
    intro s hsm
    simp only [seatHolder, hfindRel]
    exact lookupKey_releaseSeats_of_mem _ hsm
  have hbid : b.bId = bid := findBooking_bId db hb
  refine ⟨heq, (findBooking_saveShow db _ bid).trans hb, hmid, ?_, ?_⟩
  · rw [heq]
    show ((db.saveShow _).deleteBooking b.bId).findBooking bid = none
    rw [hbid]
    exact findBooking_deleteBooking_self _ bid
  · intro s hsm
    rw [heq]
    exact hmid s hsm

/-- C3 witness: the theorem applied to the store `dbUnpaid`, whose unpaid
booking `bkUnpaid` holds seats A1 and A2 of show `shX`. -/
theorem c3_witness :
    (expireIfUnpaid dbUnpaid "b1").errored = false
    ∧ (expireIfUnpaid dbUnpaid "b1").db.findBooking "b1" = none
    ∧ seatHolder (expireIfUnpaid dbUnpaid "b1").db "s1" "A1" = none
    ∧ seatHolder (expireIfUnpaid dbUnpaid "b1").db "s1" "A2" = none := by
  have h := c3_unpaid_release_then_delete dbUnpaid "b1" bkUnpaid shX
    (by decide) (by decide) (by decide) (by decide)
  refine ⟨?_, h.2.2.2.1, h.2.2.2.2 "A1" (by decide), h.2.2.2.2 "A2" (by decide)⟩
  rw [h.1]

/-- C4: the seat-release operation is idempotent — releasing the same seat
labels a second time leaves the map exactly as after the first release —
and deleting a label that is absent from the map is the identity (so it is
not an error). -/
theorem c4_release_idempotent (m : OccMap) (seats : List String) :
    releaseSeats (releaseSeats m seats) seats = releaseSeats m seats
    ∧ ∀ s, lookupKey m s = none → eraseKey m s = m := by
  constructor
  · induction seats generalizing m with
    | nil => rfl
    | cons k L ih =>
      rw [releaseSeats_cons, releaseSeats_cons, ← releaseSeats_eraseKey_comm,
        eraseKey_eraseKey_same]
      exact ih (eraseKey m k)
  · exact fun s h => eraseKey_of_lookup_none m h

/-- C4 witness: the theorem applied to a concrete map and seat list, with
the absent-key clause instantiated at the absent label `Z`. -/
theorem c4_witness :
    releaseSeats (releaseSeats [("A1", "b1"), ("B1", "u9")] ["A1", "A2"]) ["A1", "A2"]
      = releaseSeats [("A1", "b1"), ("B1", "u9")] ["A1", "A2"]
    ∧ eraseKey [("A1", "b1"), ("B1", "u9")] "Z" = [("A1", "b1"), ("B1", "u9")] := by
  have h := c4_release_idempotent [("A1", "b1"), ("B1", "u9")] ["A1", "A2"]
  exact ⟨h.1, h.2 "Z" (by decide)⟩

/-- C5 (code bug): the claim — and the spec — say every Booking is created
with isPaid equal to the boolean `false`, so that a fresh unpaid booking
passes the release handler's `!booking.isPaid` test. The schema, however,
declares `isPaid: {type: Array, default: false}`; mongoose wraps the scalar
default into the array `[false]`, which is truthy, so a freshly created
booking fails the not-paid test and the handler leaves it (and its seats)
untouched forever, as evaluated here on the concrete store `dbFresh`. -/
theorem c5_isPaid_array_code_bug :
    bookingIsPaidInitial = JsVal.arr [JsAtom.bool false]
    ∧ bookingIsPaidInitial ≠ JsVal.prim (JsAtom.bool false)
    ∧ truthy bookingIsPaidInitial = true
    ∧ bkFresh.isPaid = bookingIsPaidInitial
    ∧ expireIfUnpaid dbFresh "b1" = ⟨dbFresh, false⟩
    ∧ seatHolder dbFresh "s1" "A1" = some "b1" := by
  decide

/-- C6 (code bug): the claim — and the controller's `.sort({createdAt: -1})`
— intend the user's bookings newest first by creation time, but the schema
misspells the mongoose option as `{ timestamp: true }`, so no document ever
carries `createdAt` and the sort key is missing everywhere: on the concrete
store `dbSix`, whose bookings b1 (older) and b2 (newer) were inserted in
that order, the result keeps natural (insertion) order b1, b2 instead of
newest-first b2, b1. The user filter and the show/movie population do
behave as claimed. -/
theorem c6_no_createdAt_code_bug :
    bookingTimestampsEnabled = false
    ∧ bkSix1.createdAt = none
    ∧ bkSix2.createdAt = none
    ∧ (getUserBookings dbSix "u1").map (fun r => r.1.bId) = ["b1", "b2"]
    ∧ (getUserBookings dbSix "u1").map (fun r => r.1.bId) ≠ ["b2", "b1"]
    ∧ (getUserBookings dbSix "u1").map
        (fun r => (Option.map Show.sId r.2.1, Option.map Movie.mId r.2.2))
        = [(some "s1", some "m1"), (some "s1", some "m1")] := by
  decide

/-- C10: the deferred release handler mutates nothing outside the expiring
booking's seats — any show other than the booking's own is returned by
`findShow` unchanged, and any seat label outside the booking's booked-seats
keeps its presence and holder in every show's occupied-seats map (both
trivially so when the booking is missing or paid). -/
theorem c10_frame (db : DB) (bid sid seat : String) :
    ((∀ b, db.findBooking bid = some b → sid ≠ b.showRef) →
      (expireIfUnpaid db bid).db.findShow sid = db.findShow sid)
    ∧ ((∀ b, db.findBooking bid = some b → seat ∉ b.bookedSeats) →
      seatHolder (expireIfUnpaid db bid).db sid seat = seatHolder db sid seat) := by
  cases hb : db.findBooking bid with
  | none =>
    constructor <;> intro h <;> rw [expireIfUnpaid_missing db hb]
  | some b =>
    cases hp : truthy b.isPaid with
    | true =>
      constructor <;> intro h <;> rw [expireIfUnpaid_paid db hb hp]
    | false =>
      cases hs : db.findShow b.showRef with
      | none =>
        constructor <;> intro h <;> rw [expireIfUnpaid_noShow db hb hp hs]
      | some sh =>
        have heq := expireIfUnpaid_release db hb hp hs
        have hshId : sh.sId = b.showRef := findShow_sId db hs
        have hrelId :
            ({ sh with occupiedSeats := releaseSeats sh.occupiedSeats b.bookedSeats } : Show).sId
              = b.showRef := hshId
        constructor
        · intro h
          have hne : sid ≠ b.showRef := h b rfl
          rw [heq]
          show ((db.saveShow _).deleteBooking b.bId).findShow sid = db.findShow sid
          rw [findShow_deleteBooking]
          exact findShow_saveShow_ne db _ (by rw [hrelId]; exact hne)
        · intro h
          have hseat : seat ∉ b.bookedSeats := h b rfl
          rw [heq]
          by_cases hsid : sid = b.showRef
          · rw [hsid]
            have hsome : (db.findShow b.showRef).isSome := by rw [hs]; rfl
            have hfindRel :
                (db.saveShow
                    { sh with occupiedSeats := releaseSeats sh.occupiedSeats b.bookedSeats }).findShow
                    b.showRef
                  = some { sh with occupiedSeats := releaseSeats sh.occupiedSeats b.bookedSeats } :=
              findShow_saveShow_eq_id db _ hrelId hsome
            show seatHolder ((db.saveShow _).deleteBooking b.bId) b.showRef seat
              = seatHolder db b.showRef seat
            simp only [seatHolder, findShow_deleteBooking, hfindRel, hs]
            exact lookupKey_releaseSeats_of_not_mem _ hseat
          · show seatHolder ((db.saveShow _).deleteBooking b.bId) sid seat = seatHolder db sid seat
            simp only [seatHolder, findShow_deleteBooking,
              findShow_saveShow_ne db _ (by rw [hrelId]; exact hsid)]

/-- C7 counterexample: the claim says `addShow` rejects with a validation
error only when the movie reference is missing, the slot list is missing or
empty, or the price is missing. In `reqZero` every field is present and the
slot list is nonempty, yet the price `0` is falsy in JavaScript, so the
guard `!showPrice` fires and the request is rejected with 400. -/
theorem c7_counterexample :
    reqZero.movieId = some "m1"
    ∧ reqZero.showsInput = some [⟨"2030-01-02", .many ["18:00"]⟩]
    ∧ reqZero.showPrice = some 0
    ∧ (addShow dbMovie fetchNone reqZero).status = .badRequest := by
  decide

/-- C7 (amended): `addShow` answers 400 with success=false, creating no Show
and no Movie and emitting no event, exactly when a request field is absent,
the movie reference is the empty string, the slot list is empty, or the
price is zero (JavaScript falsiness); otherwise it never rejects for these
reasons. -/
theorem c7_amended_validation (db : DB) (fetch : String → Option String) (req : AddReq) :
    ((addShow db fetch req).status = .badRequest ↔ invalidAddReq req = true)
    ∧ (invalidAddReq req = true → addShow db fetch req = ⟨db, .badRequest, []⟩) := by
  rcases req with ⟨mi, si, pr⟩
  cases mi with
  | none => exact ⟨⟨fun _ => rfl, fun _ => rfl⟩, fun _ => rfl⟩
  | some m =>
    cases si with
    | none => exact ⟨⟨fun _ => rfl, fun _ => rfl⟩, fun _ => rfl⟩
    | some l =>
      cases pr with
      | none => exact ⟨⟨fun _ => rfl, fun _ => rfl⟩, fun _ => rfl⟩
      | some p =>
        simp only [addShow, invalidAddReq]
        by_cases hm : m = ""
        · simp [hm]
        · by_cases hl : l.isEmpty = true
          · simp [hm, hl]
          · by_cases hp : p = 0
            · simp [hm, hl, hp]
            · cases hfm : db.findMovie m with
              | some mv => simp [hm, hl, hp, hfm, addShowTail]
              | none =>
                cases hft : fetch m with
                | none => simp [hm, hl, hp, hfm, hft]
                | some t => simp [hm, hl, hp, hfm, hft, addShowTail]

/-- C7 witness: the amended theorem applied to a request whose price is the
falsy `0`. -/
theorem c7_witness : addShow dbMovie fetchNone reqZero = ⟨dbMovie, .badRequest, []⟩ :=
  (c7_amended_validation dbMovie fetchNone reqZero).2 (by decide)

theorem foldl_append_acc {α β : Type} (g : α → List β) (l : List α) (acc : List β) :
    l.foldl (fun a x => a ++ g x) acc = acc ++ l.flatMap g := by
  induction l generalizing acc with
  | nil => simp
  | cons x rest ih =>
    rw [List.foldl_cons, ih, List.flatMap_cons, List.append_assoc]

theorem showsToCreate_eq (movieId : String) (price : Nat) (l : List ShowInput) :
    l.foldl (fun acc si => acc ++ showDocsOf movieId price si) []
      = (suppliedPairs l).map (fun p => mkShowDoc movieId (p.1 ++ "T" ++ p.2) price) := by
  rw [foldl_append_acc, List.nil_append]
  unfold suppliedPairs
  induction l with
  | nil => rfl
  | cons si rest ih =>
    rw [List.flatMap_cons, List.flatMap_cons, List.map_append, ih]
    congr 1
    cases h : si.time with
    | many ts => simp only [showDocsOf, h, List.map_map]; rfl
    | one t => simp [showDocsOf, h]

theorem addShowTail_spec (db : DB) (movie : Movie) (movieId : String)
    (l : List ShowInput) (price : Nat) :
    (addShowTail db movie movieId l price).status = .ok
    ∧ (addShowTail db movie movieId l price).db.shows
        = db.shows
            ++ (suppliedPairs l).map (fun p => mkShowDoc movieId (p.1 ++ "T" ++ p.2) price)
    ∧ (addShowTail db movie movieId l price).events = [movie.title] := by
  refine ⟨rfl, ?_, rfl⟩
  simp only [addShowTail, showsToCreate_eq]
  by_cases he :
      ((suppliedPairs l).map (fun p => mkShowDoc movieId (p.1 ++ "T" ++ p.2) price)).isEmpty = true
  · rw [if_pos he, List.isEmpty_iff.mp he]
    simp
  · rw [if_neg he]
    rfl

/-- C8: for every request that passes validation (present nonempty movie
id, nonempty slot list, nonzero price) and whose movie resolves (already
stored, or fetched from the metadata service), `addShow` succeeds, appends
exactly one Show per supplied (date, time) pair — each carrying the given
movie reference and price, the combined `date ++ "T" ++ time` start time,
and an empty occupied-seats map — and emits one show-added notification
event. -/
theorem c8_addShow_creates_per_pair (db : DB) (fetch : String → Option String)
    (movieId : String) (showsInput : List ShowInput) (price : Nat)
    (hm : ¬ movieId = "") (hl : ¬ showsInput.isEmpty = true) (hp : ¬ price = 0)
    (hres : (db.findMovie movieId).isSome = true ∨ (fetch movieId).isSome = true) :
    (addShow db fetch ⟨some movieId, some showsInput, some price⟩).status = .ok
    ∧ (addShow db fetch ⟨some movieId, some showsInput, some price⟩).db.shows
        = db.shows
            ++ (suppliedPairs showsInput).map
                (fun p => mkShowDoc movieId (p.1 ++ "T" ++ p.2) price)
    ∧ (∀ s ∈ (suppliedPairs showsInput).map
          (fun p => mkShowDoc movieId (p.1 ++ "T" ++ p.2) price),
        s.movie = movieId ∧ s.showPrice = price ∧ s.occupiedSeats = [])
    ∧ ∃ t, (addShow db fetch ⟨some movieId, some showsInput, some price⟩).events = [t] := by
  have hfields : ∀ s ∈ (suppliedPairs showsInput).map
      (fun p => mkShowDoc movieId (p.1 ++ "T" ++ p.2) price),
      s.movie = movieId ∧ s.showPrice = price ∧ s.occupiedSeats = [] := by
    intro s hsm
    rcases List.mem_map.mp hsm with ⟨pr, _, hpr⟩
    rw [← hpr]
    exact ⟨rfl, rfl, rfl⟩
  cases hfm : db.findMovie movieId with
  | some mv =>
    have heq : addShow db fetch ⟨some movieId, some showsInput, some price⟩
        = addShowTail db mv movieId showsInput price := by
      simp [addShow, hm, hl, hp, hfm]
    have hspec := addShowTail_spec db mv movieId showsInput price
    rw [heq]
    exact ⟨hspec.1, hspec.2.1, hfields, ⟨mv.title, hspec.2.2⟩⟩
  | none =>
    cases hft : fetch movieId with
    | none =>
      rw [hfm, hft] at hres
      simp at hres
    | some t =>
      have heq : addShow db fetch ⟨some movieId, some showsInput, some price⟩
          = addShowTail (db.insertMovie ⟨movieId, t⟩) ⟨movieId, t⟩ movieId showsInput price := by
        simp [addShow, hm, hl, hp, hfm, hft]
      have hspec := addShowTail_spec (db.insertMovie ⟨movieId, t⟩) ⟨movieId, t⟩
        movieId showsInput price
      rw [heq]
      exact ⟨hspec.1, hspec.2.1, hfields, ⟨t, hspec.2.2⟩⟩

/-- C8 witness: the theorem applied to the store `dbMovie` and the request
`reqEight`, which supplies three (date, time) pairs. -/
theorem c8_witness :
    (addShow dbMovie fetchNone reqEight).status = .ok
    ∧ (addShow dbMovie fetchNone reqEight).db.shows
        = dbMovie.shows
            ++ (suppliedPairs [⟨"2030-01-02", .many ["18:00", "21:00"]⟩,
                  ⟨"2030-01-03", .one "12:00"⟩]).map
                (fun p => mkShowDoc "m1" (p.1 ++ "T" ++ p.2) 250)
    ∧ ∃ t, (addShow dbMovie fetchNone reqEight).events = [t] := by
  have h := c8_addShow_creates_per_pair dbMovie fetchNone "m1"
    [⟨"2030-01-02", .many ["18:00", "21:00"]⟩, ⟨"2030-01-03", .one "12:00"⟩] 250
    (by decide) (by decide) (by decide) (Or.inl (by decide))
  exact ⟨h.1, h.2.1, h.2.2.2⟩

theorem dedupByRef_cons (s : Show) (rest : List Show) (seen : List String) :
    dedupByRef (s :: rest) seen
      = if s.movie ∈ seen then dedupByRef rest seen
        else s :: dedupByRef rest (s.movie :: seen) := rfl

theorem buildUnique_eq (db : DB) (l : List Show) :
    ∀ (acc : List Movie) (seen : List String),
      (∀ r, (db.findMovie r).isSome = true → (r ∈ seen ↔ r ∈ acc.map (fun m => m.mId))) →
      buildUnique db l acc
        = acc ++ (dedupByRef l seen).filterMap (fun s => db.findMovie s.movie) := by
  induction l with
  | nil => intro acc seen hinv; simp [buildUnique, dedupByRef]
  | cons s rest ih =>
    intro acc seen hinv
    cases hm : db.findMovie s.movie with
    | none =>
      rw [show buildUnique db (s :: rest) acc = buildUnique db rest acc by
        simp [buildUnique, hm]]
      by_cases hseen : s.movie ∈ seen
      · rw [dedupByRef_cons, if_pos hseen]
        exact ih acc seen hinv
      · have hstep :
            (s :: dedupByRef rest (s.movie :: seen)).filterMap (fun x => db.findMovie x.movie)
              = (dedupByRef rest (s.movie :: seen)).filterMap (fun x => db.findMovie x.movie) :=
          List.filterMap_cons_none hm
        rw [dedupByRef_cons, if_neg hseen, hstep]
        refine ih acc (s.movie :: seen) ?_
        intro r hr
        have hrne : r ≠ s.movie := by
          intro hc
          rw [hc, hm] at hr
          exact absurd hr (by simp)
        rw [List.mem_cons]
        constructor
        · rintro (hc | hc)
          · exact absurd hc hrne
          · exact (hinv r hr).mp hc
        · intro hc
          exact Or.inr ((hinv r hr).mpr hc)
    | some mv =>
      have hmid : mv.mId = s.movie := findMovie_mId db hm
      have hrsome : (db.findMovie s.movie).isSome = true := by rw [hm]; rfl
      by_cases hacc : acc.any (fun x => x.mId = mv.mId) = true
      · have hmem : s.movie ∈ acc.map (fun m => m.mId) := by
          rcases List.any_eq_true.mp hacc with ⟨x, hx, hxe⟩
          exact List.mem_map.mpr ⟨x, hx, by
            rw [show x.mId = mv.mId from by simpa using hxe, hmid]⟩
        have hseen : s.movie ∈ seen := (hinv s.movie hrsome).mpr hmem
        rw [show buildUnique db (s :: rest) acc = buildUnique db rest acc by
          simp [buildUnique, hm, hacc]]
        rw [dedupByRef_cons, if_pos hseen]
        exact ih acc seen hinv
      · have hnotmem : s.movie ∉ acc.map (fun m => m.mId) := by
          intro hc
          rcases List.mem_map.mp hc with ⟨x, hx, hxe⟩
          exact hacc (List.any_eq_true.mpr ⟨x, hx, by simp [hxe, hmid]⟩)
        have hseen : s.movie ∉ seen := fun hc => hnotmem ((hinv s.movie hrsome).mp hc)
        rw [show buildUnique db (s :: rest) acc = buildUnique db rest (acc ++ [mv]) by
          simp [buildUnique, hm, hacc]]
        have hstep :
            (s :: dedupByRef rest (s.movie :: seen)).filterMap (fun x => db.findMovie x.movie)
              = mv :: (dedupByRef rest (s.movie :: seen)).filterMap (fun x => db.findMovie x.movie) :=
          List.filterMap_cons_some hm
        rw [dedupByRef_cons, if_neg hseen, hstep]
        have hinv2 : ∀ r, (db.findMovie r).isSome = true →
            (r ∈ s.movie :: seen ↔ r ∈ (acc ++ [mv]).map (fun m => m.mId)) := by
          intro r hr
          rw [List.mem_cons, List.map_append, List.mem_append]
          constructor
          · rintro (hc | hc)
            · exact Or.inr (by simp [hc, hmid])
            · exact Or.inl ((hinv r hr).mp hc)
          · rintro (hc | hc)
            · exact Or.inr ((hinv r hr).mpr hc)
            · exact Or.inl (by
                have : r = mv.mId := by simpa using hc
                rw [this, hmid])
        rw [ih (acc ++ [mv]) (s.movie :: seen) hinv2, List.append_assoc,
          List.singleton_append]

/-- C9 counterexample: the claim says `getShows` returns shows (records
with a start time, one per distinct movie). On the concrete store `dbNine`,
whose only upcoming show is `s1`, the endpoint returns the Movie document
`m1` — an entry whose identifier is not the identifier of any stored Show —
so the returned entries are movie documents, not show records. -/
theorem c9_counterexample :
    getShows dbNine "2020-01-01T00:00" = [movieDune]
    ∧ (dbNine.shows.filter
        (fun s => strGe s.showDateTime "2020-01-01T00:00")).map (fun s => s.sId) = ["s1"]
    ∧ movieDune.mId ∉ dbNine.shows.map (fun s => s.sId) := by
  decide

/-- C9 (amended): `getShows` returns, for the stored shows with start time
at least now ordered by ascending start time and deduplicated to the first
occurrence per distinct movie, the movie document of each such first
occurrence (shows whose movie reference does not resolve are skipped), in
that order. -/
theorem c9_amended_returns_movies (db : DB) (now : String) :
    getShows db now
      = (upcomingFirstShows db now).filterMap (fun s => db.findMovie s.movie) := by
  unfold getShows upcomingFirstShows
  rw [buildUnique_eq db _ [] [] (by simp)]
  simp

/-- C10 witness: the theorem applied to `dbUnpaid`: seat B1, which is not
among the expiring booking's seats, keeps its holder u9 across the run. -/
theorem c10_witness :
    seatHolder (expireIfUnpaid dbUnpaid "b1").db "s1" "B1" = seatHolder dbUnpaid "s1" "B1"
    ∧ seatHolder dbUnpaid "s1" "B1" = some "u9" := by
  refine ⟨(c10_frame dbUnpaid "b1" "s1" "B1").2 ?_, by decide⟩
  intro b hb
  rw [(by decide : dbUnpaid.findBooking "b1" = some bkUnpaid)] at hb
  injection hb with h2
  subst h2
  decide

end Popcorn
